
import Mathlib

/-!
Verification of the application-intake handler `src/api/apply.js`
(talent & vendor application endpoint).

The JavaScript source is shallowly embedded: JS values are the inductive
`JSValue`, the handler is the pure function `handler` taking the environment
configuration, the request, and the outcome of the single outbound
persistence call.  JS builtins that the source uses (`String.prototype.trim`,
`String.prototype.replace` with the regex `<[^>]*>`, `JSON.parse`, `Number`,
`new URL`) are modelled by executable Lean functions whose modelled scope is
stated in their doc comments.
-/

namespace Apply

/-- The ECMAScript whitespace class used by `String.prototype.trim` and by
`\s` in regexes: tab, LF, VT, FF, CR, space, NBSP, and the Unicode space
separators, plus BOM. -/
def isJsSpace (c : Char) : Bool :=
  c = ' ' || c = '\t' || c = '\n' || c = '\r' || c = '\x0b' || c = '\x0c'
  || c = ' ' || c = ' ' || (' ' ≤ c && c ≤ ' ')
  || c = ' ' || c = ' ' || c = ' ' || c = ' '
  || c = '　' || c = '﻿'

/-- `String.prototype.trim` on the character list: drop ECMAScript whitespace
from both ends. -/
def jsTrimList (l : List Char) : List Char :=
  ((l.dropWhile isJsSpace).reverse.dropWhile isJsSpace).reverse

/-- One left-to-right pass implementing `str.replace(/<[^>]*>/g, '')`.
The second argument is `none` while scanning outside a candidate match and
`some pend` after an unclosed `<`, where `pend` holds the buffered characters
(in reverse).  A `>` closes the candidate and the whole buffered segment is
dropped; if the input ends with the candidate still open, the buffer is kept
verbatim, exactly as the regex leaves an unmatched `<...` tail in place. -/
def rtGo : List Char → Option (List Char) → List Char
  | [], none => []
  | [], some pend => pend.reverse
  | c :: rest, none =>
      if c = '<' then rtGo rest (some [c]) else c :: rtGo rest none
  | c :: rest, some pend =>
      if c = '>' then rtGo rest none else rtGo rest (some (c :: pend))

/-- `str.replace(/<[^>]*>/g, '')` on the character list. -/
def removeTagsChars (l : List Char) : List Char :=
  rtGo l none

/-- The string body of `stripHtml` from the source, for string input:
remove every match of `<[^>]*>`, then trim. -/
def stripHtmlStr (s : String) : String :=
  ⟨jsTrimList (removeTagsChars s.data)⟩

/-- A character list contains a match of the regex `<[^>]*>` iff some `<`
is followed (anywhere later) by some `>`; equivalently the suffix starting
at the first `<` contains a `>`. -/
def hasTagPattern (l : List Char) : Bool :=
  match l.dropWhile (fun c => c ≠ '<') with
  | [] => false
  | _ :: rest => rest.contains '>'

/-- JavaScript numbers as far as this program observes them: the claims only
exercise integral values and NaN, so the IEEE-754 double is modelled by an
integer together with a NaN marker. -/
inductive JSNum where
  | nan : JSNum
  | int : Int → JSNum
deriving DecidableEq

/-- JavaScript values as far as this program observes them. -/
inductive JSValue where
  | vUndefined : JSValue
  | vNull : JSValue
  | vBool : Bool → JSValue
  | vNum : JSNum → JSValue
  | vStr : String → JSValue
  | vArr : List JSValue → JSValue
  | vObj : List (String × JSValue) → JSValue

/-- ECMAScript truthiness: `undefined`, `null`, `false`, `NaN`, `0` and the
empty string are falsy; every object and array is truthy. -/
def jsTruthy : JSValue → Bool
  | .vUndefined => false
  | .vNull => false
  | .vBool b => b
  | .vNum .nan => false
  | .vNum (.int n) => n ≠ 0
  | .vStr s => s ≠ ""
  | .vArr _ => true
  | .vObj _ => true

/-- Property access `v[k]` as the handler uses it: on an object the value of
the key (the last binding wins, as in `JSON.parse`), on everything else
`undefined`. -/
def getField (v : JSValue) (k : String) : JSValue :=
  match v with
  | .vObj fields => ((fields.reverse.find? (fun p => p.1 == k)).map (fun p => p.2)).getD .vUndefined
  | _ => .vUndefined

/-- `stripHtml` from the source: non-string inputs produce the empty string;
strings have every match of `<[^>]*>` removed and are then trimmed. -/
def stripHtml : JSValue → String
  | .vStr s => stripHtmlStr s
  | _ => ""

/-- Modelled ECMAScript ToString for primitive values (nested arrays are out
of the modelled scope, see `jsToString`). -/
def jsToStringPrim : JSValue → String
  | .vUndefined => "undefined"
  | .vNull => "null"
  | .vBool b => if b then "true" else "false"
  | .vNum .nan => "NaN"
  | .vNum (.int n) => toString n
  | .vStr s => s
  | .vArr _ => ""
  | .vObj _ => "[object Object]"

/-- Modelled ECMAScript ToString as used by the `new URL(url)` and
`Number(x)` argument coercions.  An array stringifies element-wise joined by
commas, with null and undefined elements as empty strings; elements that are
themselves arrays are out of the modelled scope (no claim exercises URL or
Number coercion of nested arrays). -/
def jsToString : JSValue → String
  | .vArr xs => String.intercalate "," (xs.map (fun x =>
      match x with
      | .vNull => ""
      | .vUndefined => ""
      | y => jsToStringPrim y))
  | v => jsToStringPrim v

def digitsToNat (l : List Char) : Nat :=
  l.foldl (fun n c => n * 10 + (c.toNat - '0'.toNat)) 0

/-- Modelled ECMAScript string-to-number coercion, restricted to integer
numerals: a whitespace-only string is 0, an optional sign followed by decimal
digits is that integer, anything else is NaN.  Hex, decimal points, exponents
and Infinity are out of the modelled scope; no claim exercises them. -/
def strToNumber (s : String) : JSNum :=
  match jsTrimList s.data with
  | [] => .int 0
  | '-' :: ds => if ds ≠ [] && ds.all Char.isDigit then .int (-(digitsToNat ds : Int)) else .nan
  | '+' :: ds => if ds ≠ [] && ds.all Char.isDigit then .int (digitsToNat ds) else .nan
  | ds => if ds.all Char.isDigit then .int (digitsToNat ds) else .nan

/-- Modelled ECMAScript `Number(...)` coercion. -/
def jsToNumber : JSValue → JSNum
  | .vUndefined => .nan
  | .vNull => .int 0
  | .vBool b => .int (if b then 1 else 0)
  | .vNum n => n
  | .vStr s => strToNumber s
  | .vArr xs => strToNumber (jsToString (.vArr xs))
  | .vObj _ => .nan

def emailAtomChar (c : Char) : Bool := !(isJsSpace c) && c ≠ '@'

/-- `∃ i < length - 1, l.get i = '.'`: a dot that is not the final
character. -/
def dotNonFinal : List Char → Bool
  | [] => false
  | [_] => false
  | c :: rest => c = '.' || dotNonFinal rest

/-- `isValidEmail` from the source: the regex
`^[^\s@]+@[^\s@]+\.[^\s@]+$`.  A string matches iff it splits as
`local@domain` where `local` is a nonempty run of non-whitespace non-`@`
characters and `domain` is such a run containing a dot that is neither its
first nor its last character. -/
def isValidEmail (s : String) : Bool :=
  match s.data.span (fun c => c ≠ '@') with
  | (tok, rest) =>
    match rest with
    | '@' :: domain =>
        !(tok.isEmpty) && tok.all emailAtomChar && domain.all emailAtomChar
          && (match domain with
              | [] => false
              | _ :: dtail => dotNonFinal dtail)
    | _ => false

def isC0OrSpace (c : Char) : Bool := c ≤ ' '

def asciiAlpha (c : Char) : Bool := ('a' ≤ c && c ≤ 'z') || ('A' ≤ c && c ≤ 'Z')

def schemeRestChar (c : Char) : Bool :=
  asciiAlpha c || c.isDigit || c = '+' || c = '-' || c = '.'

def specialSchemes : List String := ["http", "https", "ws", "wss", "ftp", "file"]

/-- Modelled WHATWG URL parser success, as invoked by `new URL(url)` in the
source's `isValidUrl`: leading/trailing C0 controls and spaces are stripped
and tabs/newlines removed, then the input must start with a scheme (an ASCII
letter followed by letters, digits, `+`, `-` or `.`) and a colon; a special
scheme other than `file` additionally needs a nonempty space-free host.
Finer host/port/IDNA validation of the real parser is out of the modelled
scope; the claims only exercise clearly parseable and clearly unparseable
inputs. -/
def urlCanParse (s : String) : Bool :=
  let l0 := ((s.data.dropWhile isC0OrSpace).reverse.dropWhile isC0OrSpace).reverse
  let l := l0.filter (fun c => c ≠ '\t' && c ≠ '\n' && c ≠ '\r')
  match l.span (fun c => c ≠ ':') with
  | (scheme, rest) =>
    match rest with
    | ':' :: afterColon =>
        (match scheme with
         | [] => false
         | c :: cs => asciiAlpha c && cs.all schemeRestChar)
        && (let ls : String := ⟨scheme.map Char.toLower⟩
            if ls = "file" then true
            else if specialSchemes.contains ls then
              (let afterSlashes := afterColon.dropWhile (fun c => c = '/' || c = '\\')
               let host := afterSlashes.takeWhile
                 (fun c => c ≠ '/' && c ≠ '?' && c ≠ '#' && c ≠ '\\')
               !(host.isEmpty) && host.all (fun c => !(isJsSpace c)))
            else true)
    | _ => false

/-- `isValidUrl` from the source: a falsy argument is immediately valid;
otherwise valid iff `new URL(url)` does not throw (modelled by `urlCanParse`
after ToString coercion of the argument). -/
def isValidUrl (url : JSValue) : Bool :=
  if jsTruthy url = false then true else urlCanParse (jsToString url)

def jsonWs (c : Char) : Bool := c = ' ' || c = '\t' || c = '\n' || c = '\r'

def skipJsonWs (l : List Char) : List Char := l.dropWhile jsonWs

/-- Value of one hexadecimal digit, over the character's code point. -/
def hexVal (c : Char) : Option Nat :=
  let n := c.toNat
  if 48 ≤ n ∧ n ≤ 57 then some (n - 48)
  else if 97 ≤ n ∧ n ≤ 102 then some (n - 87)
  else if 65 ≤ n ∧ n ≤ 70 then some (n - 55)
  else none

/-- JSON string body parser (after the opening quote), accumulating decoded
characters in reverse.  Escapes are decoded; `\u` surrogate pairing and the
rejection of raw control characters are out of the modelled scope. -/
def parseJsonStrAux : List Char → List Char → Option (String × List Char)
  | _, [] => none
  | acc, '"' :: r => some (⟨acc.reverse⟩, r)
  | acc, '\\' :: 'u' :: a :: b :: c :: d :: r =>
      (match hexVal a, hexVal b, hexVal c, hexVal d with
       | some x1, some x2, some x3, some x4 =>
           parseJsonStrAux (Char.ofNat (((x1 * 16 + x2) * 16 + x3) * 16 + x4) :: acc) r
       | _, _, _, _ => none)
  | acc, '\\' :: e :: r =>
      (match e with
       | '"' => parseJsonStrAux ('"' :: acc) r
       | '\\' => parseJsonStrAux ('\\' :: acc) r
       | '/' => parseJsonStrAux ('/' :: acc) r
       | 'n' => parseJsonStrAux ('\n' :: acc) r
       | 't' => parseJsonStrAux ('\t' :: acc) r
       | 'r' => parseJsonStrAux ('\r' :: acc) r
       | 'b' => parseJsonStrAux ('\x08' :: acc) r
       | 'f' => parseJsonStrAux ('\x0c' :: acc) r
       | _ => none)
  | acc, c :: r => parseJsonStrAux (c :: acc) r

/-- JSON number parser, restricted to (signed) integer numerals; fractions
and exponents are out of the modelled scope (no claim exercises them). -/
def parseJsonNum (l : List Char) : Option (JSValue × List Char) :=
  match l with
  | '-' :: r =>
      (let ds := r.takeWhile Char.isDigit
       if ds.isEmpty then none
       else some (JSValue.vNum (JSNum.int (-(digitsToNat ds : Int))), r.dropWhile Char.isDigit))
  | _ =>
      (let ds := l.takeWhile Char.isDigit
       if ds.isEmpty then none
       else some (JSValue.vNum (JSNum.int (digitsToNat ds)), l.dropWhile Char.isDigit))

/-- Array-element loop of the JSON parser: `pv` parses one value, the fuel
bounds the number of elements. -/
def jsonArrItems (pv : List Char → Option (JSValue × List Char)) :
    Nat → List Char → List JSValue → Option (JSValue × List Char)
  | 0, _, _ => none
  | fuel + 1, l, acc =>
    match pv l with
    | none => none
    | some (v, r) =>
        match skipJsonWs r with
        | ',' :: r2 => jsonArrItems pv fuel r2 (v :: acc)
        | ']' :: r2 => some (.vArr (v :: acc).reverse, r2)
        | _ => none

/-- Object-member loop of the JSON parser. -/
def jsonObjItems (pv : List Char → Option (JSValue × List Char)) :
    Nat → List Char → List (String × JSValue) → Option (JSValue × List Char)
  | 0, _, _ => none
  | fuel + 1, l, acc =>
    match skipJsonWs l with
    | '"' :: r =>
        (match parseJsonStrAux [] r with
         | none => none
         | some (k, r2) =>
             match skipJsonWs r2 with
             | ':' :: r3 =>
                 (match pv r3 with
                  | none => none
                  | some (v, r4) =>
                      match skipJsonWs r4 with
                      | ',' :: r5 => jsonObjItems pv fuel r5 ((k, v) :: acc)
                      | '}' :: r5 => some (.vObj ((k, v) :: acc).reverse, r5)
                      | _ => none)
             | _ => none)
    | _ => none

/-- Modelled `JSON.parse` value parser.  The fuel only bounds recursion
depth and element counts; `jsonParse` supplies more fuel than any input of
its length can consume. -/
def parseJsonVal : Nat → List Char → Option (JSValue × List Char)
  | 0, _ => none
  | fuel + 1, l =>
    match skipJsonWs l with
    | 'n' :: 'u' :: 'l' :: 'l' :: r => some (.vNull, r)
    | 't' :: 'r' :: 'u' :: 'e' :: r => some (.vBool true, r)
    | 'f' :: 'a' :: 'l' :: 's' :: 'e' :: r => some (.vBool false, r)
    | '"' :: r => (parseJsonStrAux [] r).map (fun p => (.vStr p.1, p.2))
    | '[' :: r =>
        (match skipJsonWs r with
         | ']' :: r2 => some (.vArr [], r2)
         | r2 => jsonArrItems (parseJsonVal fuel) fuel r2 [])
    | '{' :: r =>
        (match skipJsonWs r with
         | '}' :: r2 => some (.vObj [], r2)
         | r2 => jsonObjItems (parseJsonVal fuel) fuel r2 [])
    | l2 => parseJsonNum l2

/-- Modelled `JSON.parse`: `none` models a thrown `SyntaxError`. -/
def jsonParse (s : String) : Option JSValue :=
  match parseJsonVal (2 * s.data.length + 8) s.data with
  | some (v, rest) => if (skipJsonWs rest).isEmpty then some v else none
  | none => none

/-- The environment configuration the handler reads:
`process.env.SUPABASE_URL` and `process.env.SUPABASE_SERVICE_ROLE_KEY`
(each a string or undefined). -/
structure Config where
  supabaseUrl : Option String
  supabaseKey : Option String

/-- The parts of the incoming request the handler reads: the method, the
`Origin` header, the (possibly already platform-parsed) body, and the
`X-Forwarded-For`, `X-Real-IP` and `User-Agent` headers. -/
structure Request where
  method : String
  origin : Option String
  body : JSValue
  xForwardedFor : Option String
  xRealIp : Option String
  userAgent : Option String

/-- The record the handler forwards to the persistence API (`row` in the
source).  `none` on an optional field models JSON `null` (or, for the
type-conditional fields, the key being absent for the other type). -/
structure Row where
  type : String
  name : String
  email : String
  phone : Option String
  location : Option String
  company : Option String
  website : Option String
  portfolio_url : Option String
  linkedin_url : Option String
  bio : String
  referral_source : Option String
  ip_address : Option String
  user_agent : Option String
  primary_discipline : Option String
  disciplines : Option (List String)
  years_experience : Option Int
  vendor_type : Option String
  services_offered : Option (List String)
deriving DecidableEq

/-- The JSON body of the HTTP response (empty for `res.end()`). -/
inductive RespBody where
  | empty : RespBody
  | okTrue : RespBody
  | err : String → RespBody
  | errDetails : String → List String → RespBody
deriving DecidableEq

/-- The observable outcome of one invocation: status code, response body,
the Access-Control-Allow-Origin header if set, and the row sent to the
persistence API if a write was issued. -/
structure HandlerResult where
  status : Nat
  body : RespBody
  acao : Option String
  write : Option Row
deriving DecidableEq

def ALLOWED_ORIGINS : List String :=
  ["https://thirty3labs.com", "https://www.thirty3labs.com"]

def VALID_TYPES : List String := ["talent", "vendor"]

def TALENT_DISCIPLINES : List String :=
  ["Photography", "Videography", "Directing", "Graphic Design", "Motion Design",
   "Web Development", "App Development", "Production Management", "Event Management",
   "AV Engineering", "Sound Design", "Lighting Design", "Fabrication", "Styling", "Other"]

def VENDOR_TYPES : List String :=
  ["Fabrication & Build", "Print & Signage", "AV & Equipment Rental",
   "Catering & F&B", "Venue", "Furniture & Decor Rental",
   "Staffing", "Transportation & Logistics", "Other"]

/-- `ALLOWED_ORIGINS.includes(origin) || origin.startsWith('http://localhost')`. -/
def originAllowed (o : String) : Bool :=
  ALLOWED_ORIGINS.contains o || o.startsWith "http://localhost"

/-- The Access-Control-Allow-Origin header the handler sets (from
`req.headers.origin || ''`): the exact request origin when allowed, absent
otherwise. -/
def acaoOf (req : Request) : Option String :=
  if originAllowed (req.origin.getD "") then some (req.origin.getD "") else none

/-- Truthiness of an environment variable (`!supabaseUrl`): present and
nonempty. -/
def envTruthy : Option String → Bool
  | some s => s ≠ ""
  | none => false

/-- `typeof req.body === 'string' ? JSON.parse(req.body) : req.body`;
`none` models the `JSON.parse` exception, which the surrounding catch turns
into a 500. -/
def parseBodyStep : JSValue → Option JSValue
  | .vStr s => jsonParse s
  | v => some v

/-- The validation block of the handler, producing the `errors` list in
source order. -/
def validate (b : JSValue) : List String :=
  let type := stripHtml (getField b "type")
  let name := stripHtml (getField b "name")
  let email := stripHtml (getField b "email")
  let bio := stripHtml (getField b "bio")
  (if !(VALID_TYPES.contains type) then ["Invalid application type"] else [])
  ++ (if name = "" || name.length < 2 then ["Name is required (min 2 characters)"] else [])
  ++ (if email = "" || !(isValidEmail email) then ["Valid email is required"] else [])
  ++ (if bio = "" || bio.length < 50 then ["Bio must be at least 50 characters"] else [])
  ++ (if type = "talent" then
        (let discipline := stripHtml (getField b "primary_discipline")
         if discipline = "" || !(TALENT_DISCIPLINES.contains discipline) then
           ["Primary discipline is required"]
         else [])
      else [])
  ++ (if type = "vendor" then
        (let vendorType := stripHtml (getField b "vendor_type")
         if vendorType = "" || !(VENDOR_TYPES.contains vendorType) then
           ["Vendor type is required"]
         else [])
      else [])
  ++ (if jsTruthy (getField b "website") && !(isValidUrl (getField b "website")) then
        ["Invalid website URL"] else [])
  ++ (if jsTruthy (getField b "portfolio_url") && !(isValidUrl (getField b "portfolio_url")) then
        ["Invalid portfolio URL"] else [])
  ++ (if jsTruthy (getField b "linkedin_url") && !(isValidUrl (getField b "linkedin_url")) then
        ["Invalid LinkedIn URL"] else [])

/-- `stripHtml(x) || null`. -/
def orNull (s : String) : Option String := if s = "" then none else some s

/-- `a || b || null` over optional header strings. -/
def optTruthy : Option String → Option String
  | some s => if s = "" then none else some s
  | none => none

/-- `Number(x) || null`. -/
def numOrNull : JSNum → Option Int
  | .nan => none
  | .int n => if n = 0 then none else some n

/-- `Array.isArray(x) ? x.map(stripHtml).filter(Boolean) : null`. -/
def sanitizeArr : JSValue → Option (List String)
  | .vArr xs => some ((xs.map stripHtml).filter (fun s => s ≠ ""))
  | _ => none

/-- The `row` object the handler builds from a validated body. -/
def buildRow (req : Request) (b : JSValue) : Row :=
  let type := stripHtml (getField b "type")
  { type := type
    name := stripHtml (getField b "name")
    email := stripHtml (getField b "email")
    phone := orNull (stripHtml (getField b "phone"))
    location := orNull (stripHtml (getField b "location"))
    company := orNull (stripHtml (getField b "company"))
    website := orNull (stripHtml (getField b "website"))
    portfolio_url := orNull (stripHtml (getField b "portfolio_url"))
    linkedin_url := orNull (stripHtml (getField b "linkedin_url"))
    bio := stripHtml (getField b "bio")
    referral_source := orNull (stripHtml (getField b "referral_source"))
    ip_address := (optTruthy req.xForwardedFor).orElse (fun _ => optTruthy req.xRealIp)
    user_agent := optTruthy req.userAgent
    primary_discipline :=
      if type = "talent" then some (stripHtml (getField b "primary_discipline")) else none
    disciplines := if type = "talent" then sanitizeArr (getField b "disciplines") else none
    years_experience :=
      if type = "talent" then numOrNull (jsToNumber (getField b "years_experience")) else none
    vendor_type :=
      if type = "vendor" then some (stripHtml (getField b "vendor_type")) else none
    services_offered :=
      if type = "vendor" then sanitizeArr (getField b "services_offered") else none }

/-- Status, response body and persistence write of the handler — everything
except the CORS header, which the source sets up front from the origin alone.
`upstreamOk` is `response.ok` of the single outbound persistence call (a
network-level fetch exception is out of the modelled scope; no claim
exercises it). -/
def handlerCore (env : Config) (req : Request) (upstreamOk : Bool) :
    Nat × RespBody × Option Row :=
  if req.method = "OPTIONS" then (200, .empty, none)
  else if req.method ≠ "POST" then (405, .err "Method not allowed", none)
  else if !(envTruthy env.supabaseUrl) || !(envTruthy env.supabaseKey) then
    (500, .err "Server configuration error", none)
  else
    match parseBodyStep req.body with
    | none => (500, .err "Internal server error", none)
    | some b =>
      if !(jsTruthy b) then (400, .err "Missing request body", none)
      else if jsTruthy (getField b "website_url") then (200, .okTrue, none)
      else
        let errors := validate b
        if errors.length > 0 then (400, .errDetails "Validation failed" errors, none)
        else
          let row := buildRow req b
          if upstreamOk then (200, .okTrue, some row)
          else (500, .err "Failed to save application", some row)

/-- The full handler: `handlerCore` plus the CORS allow-origin header. -/
def handler (env : Config) (req : Request) (upstreamOk : Bool) : HandlerResult :=
  let c := handlerCore env req upstreamOk
  ⟨c.1, c.2.1, acaoOf req, c.2.2⟩

/-- Executable check of the sanitizer invariant on a string: no match of the
tag pattern `<[^>]*>` and no leading or trailing ECMAScript whitespace. -/
def sanitizedB (s : String) : Bool :=
  !(hasTagPattern s.data)
  && (s.data.head?.all (fun c => !(isJsSpace c)))
  && (s.data.getLast?.all (fun c => !(isJsSpace c)))

/-- Test fixture: a configuration with both persistence values present. -/
def envOk : Config := ⟨some "https://supabase.example", some "service-role-key"⟩

/-- Test fixture: a configuration missing the base URL. -/
def envMissingUrl : Config := ⟨none, some "service-role-key"⟩

/-- Test fixture: a configuration missing both values. -/
def envNone : Config := ⟨none, none⟩

/-- Test fixture: a bio comfortably over the 50-character minimum. -/
def bio50 : String :=
  "This biography is certainly long enough for the validator to accept all of it."

/-- Test fixture: a bot submission — honeypot filled, everything else
invalid. -/
def bodyC1 : JSValue :=
  .vObj [("website_url", .vStr "http://spam.example"), ("type", .vStr "<garbage>")]

def reqC1 : Request := ⟨"POST", none, bodyC1, none, none, none⟩

/-- Test fixture: a POST whose string body is not parseable JSON. -/
def reqC2bad : Request := ⟨"POST", none, .vStr "not json", none, none, none⟩

/-- Test fixture: a POST with no body at all. -/
def reqC2missing : Request := ⟨"POST", none, .vUndefined, none, none, none⟩

/-- Test fixture: a fully valid talent submission except that `website` is a
single space — empty after sanitization, invalid as a raw URL. -/
def bodyC3 : JSValue :=
  .vObj [("type", .vStr "talent"), ("name", .vStr "Jo"), ("email", .vStr "jo@x.com"),
         ("bio", .vStr bio50), ("primary_discipline", .vStr "Photography"),
         ("website", .vStr " ")]

def reqC3 : Request := ⟨"POST", none, bodyC3, none, none, none⟩

/-- Test fixture: scenario 2 of the spec — vendor with a one-character name,
bad email, short bio and no vendor type. -/
def bodyC6 : JSValue :=
  .vObj [("type", .vStr "vendor"), ("name", .vStr "A"), ("email", .vStr "bad-email"),
         ("bio", .vStr "short")]

def reqC6 : Request := ⟨"POST", none, bodyC6, none, none, none⟩

/-- Test fixture: a preflight request. -/
def reqC7options : Request := ⟨"OPTIONS", none, .vUndefined, none, none, none⟩

def reqC7post : Request := ⟨"POST", none, .vUndefined, none, none, none⟩

def reqC8local : Request :=
  ⟨"OPTIONS", some "http://localhost:3000", .vUndefined, none, none, none⟩

def reqC8evil : Request := ⟨"POST", some "https://evil.example", bodyC6, none, none, none⟩

/-- Test fixture: a fully valid talent submission. -/
def bodyC9 : JSValue :=
  .vObj [("type", .vStr "talent"), ("name", .vStr "Jo"), ("email", .vStr "jo@x.com"),
         ("bio", .vStr bio50), ("primary_discipline", .vStr "Photography")]

/-- Test fixture: valid talent submission carrying a User-Agent header full
of markup and edge whitespace. -/
def reqC9 : Request := ⟨"POST", none, bodyC9, none, none, some " <b>hi</b> "⟩

def bodyC10num : JSValue :=
  .vObj [("type", .vStr "talent"), ("name", .vStr "Jo"), ("email", .vStr "jo@x.com"),
         ("bio", .vStr bio50), ("primary_discipline", .vStr "Photography"),
         ("years_experience", .vNum (.int 0))]

def bodyC10str : JSValue :=
  .vObj [("type", .vStr "talent"), ("name", .vStr "Jo"), ("email", .vStr "jo@x.com"),
         ("bio", .vStr bio50), ("primary_discipline", .vStr "Photography"),
         ("years_experience", .vStr "0")]

def bodyC10abs : JSValue :=
  .vObj [("type", .vStr "talent"), ("name", .vStr "Jo"), ("email", .vStr "jo@x.com"),
         ("bio", .vStr bio50), ("primary_discipline", .vStr "Photography")]

def reqC10num : Request := ⟨"POST", none, bodyC10num, none, none, none⟩

def reqC10str : Request := ⟨"POST", none, bodyC10str, none, none, none⟩

def reqC10abs : Request := ⟨"POST", none, bodyC10abs, none, none, none⟩

theorem contains_gt_iff (l : List Char) : l.contains '>' = true ↔ '>' ∈ l := by
  simp

theorem contains_gt_false_iff (l : List Char) :
    l.contains '>' = false ↔ '>' ∉ l := by
  rw [← contains_gt_iff]
  cases h : l.contains '>' <;> simp

theorem hasTagPattern_iff_parts (l : List Char) :
    hasTagPattern l = true ↔ ∃ l1 l2, l = l1 ++ '<' :: l2 ∧ '>' ∈ l2 := by
  constructor
  · intro h
    unfold hasTagPattern at h
    rcases hd : l.dropWhile (fun c => c ≠ '<') with _ | ⟨c, rest⟩
    · rw [hd] at h; simp at h
    · rw [hd] at h
      have hc : (c ≠ '<') = false := by
        have := List.head?_dropWhile_not (fun c => c ≠ '<') l
        rw [hd] at this
        simpa using this
      have hc' : c = '<' := by simpa using hc
      have hl : l = l.takeWhile (fun c => c ≠ '<') ++ '<' :: rest := by
        conv_lhs => rw [← List.takeWhile_append_dropWhile (p := fun c => c ≠ '<') (l := l)]
        rw [hd, hc']
      exact ⟨l.takeWhile (fun c => c ≠ '<'), rest, hl, (contains_gt_iff rest).1 h⟩
  · rintro ⟨l1, l2, rfl, hgt⟩
    induction l1 with
    | nil =>
        unfold hasTagPattern
        simp only [List.nil_append]
        rw [List.dropWhile_cons_of_neg (by simp)]
        simp [hgt]
    | cons a l1 ih =>
        unfold hasTagPattern
        by_cases ha : a = '<'
        · subst ha
          rw [show (('<' :: l1 ++ '<' :: l2).dropWhile (fun c => c ≠ '<'))
                = '<' :: (l1 ++ '<' :: l2) from by
              apply List.dropWhile_cons_of_neg; simp]
          simp [hgt]
        · rw [show ((a :: l1 ++ '<' :: l2).dropWhile (fun c => c ≠ '<'))
                = ((l1 ++ '<' :: l2).dropWhile (fun c => c ≠ '<')) from by
              apply List.dropWhile_cons_of_pos; simpa using ha]
          exact ih

theorem hasTagPattern_append_left {x y : List Char}
    (h : hasTagPattern x = true) : hasTagPattern (x ++ y) = true := by
  rcases (hasTagPattern_iff_parts x).1 h with ⟨l1, l2, rfl, hgt⟩
  refine (hasTagPattern_iff_parts _).2 ⟨l1, l2 ++ y, by simp, ?_⟩
  simp [hgt]

theorem hasTagPattern_append_right {x y : List Char}
    (h : hasTagPattern y = true) : hasTagPattern (x ++ y) = true := by
  rcases (hasTagPattern_iff_parts y).1 h with ⟨l1, l2, rfl, hgt⟩
  exact (hasTagPattern_iff_parts _).2 ⟨x ++ l1, l2, by simp, hgt⟩

theorem hasTagPattern_of_not_contains {l : List Char}
    (h : l.contains '>' = false) : hasTagPattern l = false := by
  by_contra hne
  have ht : hasTagPattern l = true := by
    cases hv : hasTagPattern l
    · exact absurd hv hne
    · rfl
  rcases (hasTagPattern_iff_parts l).1 ht with ⟨l1, l2, rfl, hgt⟩
  rw [contains_gt_false_iff] at h
  exact h (by simp [hgt])

theorem hasTagPattern_cons_ne {c : Char} {l : List Char} (h : c ≠ '<') :
    hasTagPattern (c :: l) = hasTagPattern l := by
  unfold hasTagPattern
  rw [List.dropWhile_cons_of_pos (by simpa using h)]

/-- Characters buffered by `rtGo` never include `>`; under that invariant the
output of the scan contains no remaining match of `<[^>]*>`. -/
theorem hasTagPattern_rtGo :
    ∀ (l : List Char) (m : Option (List Char)),
      (∀ p, m = some p → p.contains '>' = false) →
      hasTagPattern (rtGo l m) = false := by
  intro l
  induction l with
  | nil =>
      intro m hm
      cases m with
      | none => simp [rtGo, hasTagPattern]
      | some p =>
          simp only [rtGo]
          apply hasTagPattern_of_not_contains
          have := (contains_gt_false_iff p).1 (hm p rfl)
          rw [contains_gt_false_iff]
          simpa using this
  | cons c rest ih =>
      intro m hm
      cases m with
      | none =>
          by_cases hc : c = '<'
          · subst hc
            rw [show rtGo ('<' :: rest) none = rtGo rest (some ['<']) from by
              simp [rtGo]]
            exact ih _ (by intro p hp; cases hp; simp)
          · rw [show rtGo (c :: rest) none = c :: rtGo rest none from by
              simp [rtGo, hc]]
            rw [hasTagPattern_cons_ne hc]
            exact ih none (by intro p hp; cases hp)
      | some pend =>
          by_cases hc : c = '>'
          · subst hc
            rw [show rtGo ('>' :: rest) (some pend) = rtGo rest none from by
              simp [rtGo]]
            exact ih none (by intro p hp; cases hp)
          · rw [show rtGo (c :: rest) (some pend) = rtGo rest (some (c :: pend)) from by
              simp [rtGo, hc]]
            refine ih _ ?_
            intro p hp; cases hp
            have := (contains_gt_false_iff pend).1 (hm pend rfl)
            rw [contains_gt_false_iff]
            intro hmem
            rcases List.mem_cons.1 hmem with h1 | h2
            · exact hc h1.symm
            · exact this h2

theorem hasTagPattern_removeTags (l : List Char) :
    hasTagPattern (removeTagsChars l) = false :=
  hasTagPattern_rtGo l none (by intro p hp; cases hp)

theorem rtGo_no_gt :
    ∀ (l : List Char) (p : List Char), l.contains '>' = false →
      rtGo l (some p) = p.reverse ++ l := by
  intro l
  induction l with
  | nil => intro p _; simp [rtGo]
  | cons c rest ih =>
      intro p h
      have h' : '>' ∉ c :: rest := (contains_gt_false_iff _).1 h
      have hc : ¬ (c = '>') := by
        intro hcc; subst hcc; exact h' (List.mem_cons_self _ _)
      have hrest : rest.contains '>' = false := by
        rw [contains_gt_false_iff]
        intro hmem; exact h' (List.mem_cons_of_mem _ hmem)
      rw [show rtGo (c :: rest) (some p) = rtGo rest (some (c :: p)) from by
        simp [rtGo, hc]]
      rw [ih (c :: p) hrest]
      simp

/-- If a character list contains no match of `<[^>]*>`, the replace pass
leaves it unchanged. -/
theorem removeTags_of_tagFree :
    ∀ (l : List Char), hasTagPattern l = false → removeTagsChars l = l := by
  intro l
  induction l with
  | nil => intro _; rfl
  | cons c rest ih =>
      intro h
      by_cases hc : c = '<'
      · subst hc
        have hgt : rest.contains '>' = false := by
          by_contra hne
          have : rest.contains '>' = true := by
            cases hv : rest.contains '>'
            · exact absurd hv hne
            · rfl
          have : hasTagPattern ('<' :: rest) = true :=
            (hasTagPattern_iff_parts _).2 ⟨[], rest, rfl, (contains_gt_iff rest).1 this⟩
          rw [this] at h; cases h
        unfold removeTagsChars
        rw [show rtGo ('<' :: rest) none = rtGo rest (some ['<']) from by
          simp [rtGo]]
        rw [rtGo_no_gt rest ['<'] hgt]
        rfl
      · rw [hasTagPattern_cons_ne hc] at h
        unfold removeTagsChars
        rw [show rtGo (c :: rest) none = c :: rtGo rest none from by
          simp [rtGo, hc]]
        have := ih h
        unfold removeTagsChars at this
        rw [this]

theorem head_dropWhile_false {p : Char → Bool} {l : List Char} {c : Char}
    (h : (l.dropWhile p).head? = some c) : p c = false := by
  have := List.head?_dropWhile_not p l
  rw [h] at this
  exact this

theorem getLast_dropWhile {p : Char → Bool} :
    ∀ (l : List Char), l.dropWhile p ≠ [] →
      (l.dropWhile p).getLast? = l.getLast? := by
  intro l
  induction l with
  | nil => intro h; simp [List.dropWhile] at h
  | cons a l ih =>
      intro h
      by_cases hp : p a
      · rw [List.dropWhile_cons_of_pos hp] at h ⊢
        rw [ih h]
        cases l with
        | nil => simp [List.dropWhile] at h
        | cons b m => rw [List.getLast?_cons_cons]
      · rw [List.dropWhile_cons_of_neg hp]

theorem jsTrim_head {l : List Char} {c : Char}
    (h : (jsTrimList l).head? = some c) : isJsSpace c = false := by
  unfold jsTrimList at h
  rw [List.head?_reverse] at h
  have hne : (l.dropWhile isJsSpace).reverse.dropWhile isJsSpace ≠ [] := by
    intro he; rw [he] at h; cases h
  rw [getLast_dropWhile _ hne, List.getLast?_reverse] at h
  exact head_dropWhile_false h

theorem jsTrim_getLast {l : List Char} {c : Char}
    (h : (jsTrimList l).getLast? = some c) : isJsSpace c = false := by
  unfold jsTrimList at h
  rw [List.getLast?_reverse] at h
  exact head_dropWhile_false h

theorem jsTrim_eq_self {l : List Char}
    (h1 : ∀ c, l.head? = some c → isJsSpace c = false)
    (h2 : ∀ c, l.getLast? = some c → isJsSpace c = false) :
    jsTrimList l = l := by
  have e1 : l.dropWhile isJsSpace = l := by
    cases l with
    | nil => rfl
    | cons a m =>
        rw [List.dropWhile_cons_of_neg]
        simp [h1 a rfl]
  unfold jsTrimList
  rw [e1]
  have e2 : l.reverse.dropWhile isJsSpace = l.reverse := by
    cases hr : l.reverse with
    | nil => rfl
    | cons a m =>
        have ha : l.getLast? = some a := by
          rw [← List.head?_reverse, hr]; rfl
        rw [List.dropWhile_cons_of_neg]
        simp [h2 a ha]
  rw [e2, List.reverse_reverse]

theorem jsTrim_decomp (l : List Char) :
    ∃ u v, l = (u ++ jsTrimList l) ++ v := by
  refine ⟨l.takeWhile isJsSpace,
    ((l.dropWhile isJsSpace).reverse.takeWhile isJsSpace).reverse, ?_⟩
  rw [List.append_assoc]
  conv_lhs => rw [← List.takeWhile_append_dropWhile (p := isJsSpace) (l := l)]
  congr 1
  conv_lhs => rw [← List.reverse_reverse (l.dropWhile isJsSpace),
    ← List.takeWhile_append_dropWhile (p := isJsSpace) (l := (l.dropWhile isJsSpace).reverse),
    List.reverse_append]
  rfl

theorem hasTagPattern_jsTrim {l : List Char} (h : hasTagPattern l = false) :
    hasTagPattern (jsTrimList l) = false := by
  rcases jsTrim_decomp l with ⟨u, v, he⟩
  cases hv : hasTagPattern (jsTrimList l)
  · rfl
  · exfalso
    have h1 := hasTagPattern_append_left (y := v) hv
    have h2 := hasTagPattern_append_right (x := u) h1
    rw [← List.append_assoc, ← he] at h2
    rw [h2] at h
    cases h

theorem hasTagPattern_stripHtmlStr (s : String) :
    hasTagPattern (stripHtmlStr s).data = false :=
  hasTagPattern_jsTrim (hasTagPattern_removeTags _)

theorem stripHtmlStr_head {s : String} {c : Char}
    (h : (stripHtmlStr s).data.head? = some c) : isJsSpace c = false :=
  jsTrim_head h

theorem stripHtmlStr_getLast {s : String} {c : Char}
    (h : (stripHtmlStr s).data.getLast? = some c) : isJsSpace c = false :=
  jsTrim_getLast h

theorem stripHtmlStr_idem (s : String) :
    stripHtmlStr (stripHtmlStr s) = stripHtmlStr s := by
  show String.mk (jsTrimList (removeTagsChars (jsTrimList (removeTagsChars s.data))))
      = String.mk (jsTrimList (removeTagsChars s.data))
  have htf : hasTagPattern (jsTrimList (removeTagsChars s.data)) = false :=
    hasTagPattern_jsTrim (hasTagPattern_removeTags _)
  rw [removeTags_of_tagFree _ htf]
  rw [jsTrim_eq_self (fun c hc => jsTrim_head hc) (fun c hc => jsTrim_getLast hc)]

theorem sanitizedB_stripHtmlStr (s : String) : sanitizedB (stripHtmlStr s) = true := by
  unfold sanitizedB
  rw [hasTagPattern_stripHtmlStr]
  have h1 : (stripHtmlStr s).data.head?.all (fun c => !(isJsSpace c)) = true := by
    cases hh : (stripHtmlStr s).data.head? with
    | none => rfl
    | some c => simp [Option.all, stripHtmlStr_head hh]
  have h2 : (stripHtmlStr s).data.getLast?.all (fun c => !(isJsSpace c)) = true := by
    cases hl : (stripHtmlStr s).data.getLast? with
    | none => rfl
    | some c => simp [Option.all, stripHtmlStr_getLast hl]
  rw [h1, h2]
  rfl

theorem sanitizedB_stripHtml (v : JSValue) : sanitizedB (stripHtml v) = true := by
  cases v with
  | vStr s => exact sanitizedB_stripHtmlStr s
  | vUndefined => rfl
  | vNull => rfl
  | vBool b => rfl
  | vNum n => rfl
  | vArr xs => rfl
  | vObj fs => rfl

theorem jsTruthy_of_stripHtml {w : JSValue} (h : stripHtml w ≠ "") :
    jsTruthy w = true := by
  cases w with
  | vStr s =>
      have hs : ¬ (s = "") := by
        intro he; subst he; exact h rfl
      simp [jsTruthy, hs]
  | vUndefined => exact absurd rfl h
  | vNull => exact absurd rfl h
  | vBool b => exact absurd rfl h
  | vNum n => exact absurd rfl h
  | vArr xs => exact absurd rfl h
  | vObj fs => exact absurd rfl h

theorem jsTruthy_obj_of_field {b : JSValue} {k : String}
    (h : stripHtml (getField b k) ≠ "") : jsTruthy b = true := by
  cases b with
  | vObj fs => rfl
  | vUndefined => exact absurd rfl h
  | vNull => exact absurd rfl h
  | vBool x => exact absurd rfl h
  | vNum n => exact absurd rfl h
  | vStr s => exact absurd rfl h
  | vArr xs => exact absurd rfl h

theorem write_inversion {env : Config} {req : Request} {ok : Bool} {row : Row}
    (h : (handler env req ok).write = some row) :
    ∃ b, parseBodyStep req.body = some b ∧ validate b = [] ∧ row = buildRow req b := by
  have hc : (handlerCore env req ok).2.2 = some row := h
  unfold handlerCore at hc
  split at hc
  · exact absurd hc (by simp)
  · split at hc
    · exact absurd hc (by simp)
    · split at hc
      · exact absurd hc (by simp)
      · rcases hp : parseBodyStep req.body with _ | b
        · rw [hp] at hc; exact absurd hc (by simp)
        · rw [hp] at hc
          simp only at hc
          split at hc
          · exact absurd hc (by simp)
          · split at hc
            · exact absurd hc (by simp)
            · split at hc
              · exact absurd hc (by simp)
              · rename_i hlen
                have hnil : validate b = [] := by
                  rw [← List.length_eq_zero]
                  omega
                refine ⟨b, rfl, hnil, ?_⟩
                split at hc <;> (injection hc with he; exact he.symm)

theorem validate_nil_type_valid {b : JSValue} (h : validate b = []) :
    VALID_TYPES.contains (stripHtml (getField b "type")) = true := by
  rw [validate] at h
  simp at h
  simpa using h.1

theorem talent_or_vendor {t : String} (h : VALID_TYPES.contains t = true) :
    t = "talent" ∨ t = "vendor" := by
  simp [VALID_TYPES] at h
  exact h

theorem orNull_stripHtml_sanitized {x : JSValue} {s : String}
    (h : orNull (stripHtml x) = some s) : sanitizedB s = true := by
  unfold orNull at h
  split at h
  · cases h
  · injection h with he
    subst he
    exact sanitizedB_stripHtml x

theorem sanitizeArr_sanitized {x : JSValue} {l : List String}
    (h : sanitizeArr x = some l) : ∀ s ∈ l, sanitizedB s = true := by
  cases x with
  | vArr xs =>
      injection h with he
      subst he
      intro s hs
      have hm := List.mem_filter.1 hs
      rcases List.mem_map.1 hm.1 with ⟨y, _, rfl⟩
      exact sanitizedB_stripHtml y
  | vUndefined => cases h
  | vNull => cases h
  | vBool x => cases h
  | vNum n => cases h
  | vStr s => cases h
  | vObj fs => cases h

theorem mem_ite_nil {c : Prop} [Decidable c] {l : List String} {x : String} :
    (x ∈ if c then l else []) ↔ c ∧ x ∈ l := by
  split <;> simp [*]

/-- C1: for every POST request whose parsed body has a non-empty (after
sanitization) value in the honeypot field `website_url`, with the
persistence configuration present, the handler responds 200 with the
ok-body immediately and issues no outbound persistence write, regardless of
every other field. -/
theorem c1_honeypot_silent_accept (env : Config) (req : Request) (ok : Bool)
    (b : JSValue)
    (hm : req.method = "POST")
    (hu : envTruthy env.supabaseUrl = true) (hk : envTruthy env.supabaseKey = true)
    (hb : parseBodyStep req.body = some b)
    (hp : stripHtml (getField b "website_url") ≠ "") :
    (handler env req ok).status = 200
    ∧ (handler env req ok).body = RespBody.okTrue
    ∧ (handler env req ok).write = none := by
  have ht : jsTruthy b = true := jsTruthy_obj_of_field hp
  have hw : jsTruthy (getField b "website_url") = true := jsTruthy_of_stripHtml hp
  unfold handler handlerCore
  simp [hm, hu, hk, hb, ht, hw]

/-- C1 witness: a concrete bot submission (honeypot filled, type garbage)
is accepted with 200 and no write. -/
theorem c1_honeypot_silent_accept_witness :
    (handler envOk reqC1 true).status = 200
    ∧ (handler envOk reqC1 true).body = RespBody.okTrue
    ∧ (handler envOk reqC1 true).write = none :=
  c1_honeypot_silent_accept envOk reqC1 true bodyC1 rfl rfl rfl rfl (by decide)

/-- C2 counterexample: a POST whose string body is not parseable JSON is
answered 500 with the internal-error body — not 400 with the
missing-request-body error the claim requires. -/
theorem c2_unparseable_body_counterexample :
    (handler envOk reqC2bad true).status = 500
    ∧ (handler envOk reqC2bad true).body = RespBody.err "Internal server error"
    ∧ ¬((handler envOk reqC2bad true).status = 400
        ∧ (handler envOk reqC2bad true).body = RespBody.err "Missing request body") := by
  decide

/-- C2 amended: with configuration present, a POST body that is a string
failing JSON parsing is answered 500 with the internal-error body (the parse
exception reaches the catch-all), while a missing (or parsed-but-falsy) body
is answered 400 with the missing-request-body error. -/
theorem c2_missing_or_unparseable_body (env : Config) (req : Request) (ok : Bool)
    (hm : req.method = "POST")
    (hu : envTruthy env.supabaseUrl = true) (hk : envTruthy env.supabaseKey = true) :
    (∀ s, req.body = JSValue.vStr s → jsonParse s = none →
        handler env req ok = ⟨500, RespBody.err "Internal server error", acaoOf req, none⟩)
    ∧ (∀ b, parseBodyStep req.body = some b → jsTruthy b = false →
        handler env req ok = ⟨400, RespBody.err "Missing request body", acaoOf req, none⟩) := by
  constructor
  · intro s hs hj
    unfold handler handlerCore
    simp [hm, hu, hk, hs, parseBodyStep, hj]
  · intro b hb hf
    unfold handler handlerCore
    simp [hm, hu, hk, hb, hf]

/-- C2 amended witness: the concrete unparseable and missing bodies. -/
theorem c2_missing_or_unparseable_body_witness :
    handler envOk reqC2bad true = ⟨500, RespBody.err "Internal server error", none, none⟩
    ∧ handler envOk reqC2missing true = ⟨400, RespBody.err "Missing request body", none, none⟩ :=
  ⟨(c2_missing_or_unparseable_body envOk reqC2bad true rfl rfl rfl).1 "not json" rfl rfl,
   (c2_missing_or_unparseable_body envOk reqC2missing true rfl rfl rfl).2 JSValue.vUndefined rfl rfl⟩

/-- C3 counterexample: in a submission whose `website` value is a single
space — empty after sanitization, hence per the claim always valid — the
handler still appends "Invalid website URL" and rejects with 400: the URL
check runs on the raw value, not the sanitized one. -/
theorem c3_url_validation_counterexample :
    stripHtml (getField bodyC3 "website") = ""
    ∧ validate bodyC3 = ["Invalid website URL"]
    ∧ (handler envOk reqC3 true).status = 400
    ∧ (handler envOk reqC3 true).body
        = RespBody.errDetails "Validation failed" ["Invalid website URL"] := by
  decide

/-- C3 amended: each optional URL field's type-specific message is appended
exactly when the RAW field value is truthy and fails URL parsing;
sanitization is not applied before this check (only the stored copy of the
field is sanitized), so an absent or falsy raw value is always valid. -/
theorem c3_url_validation_on_raw (b : JSValue) :
    (("Invalid website URL" ∈ validate b) ↔
       (jsTruthy (getField b "website") = true
        ∧ isValidUrl (getField b "website") = false))
    ∧ (("Invalid portfolio URL" ∈ validate b) ↔
       (jsTruthy (getField b "portfolio_url") = true
        ∧ isValidUrl (getField b "portfolio_url") = false))
    ∧ (("Invalid LinkedIn URL" ∈ validate b) ↔
       (jsTruthy (getField b "linkedin_url") = true
        ∧ isValidUrl (getField b "linkedin_url") = false)) := by
  refine ⟨?_, ?_, ?_⟩ <;>
    simp [validate, mem_ite_nil, List.mem_append]

/-- C3 amended witness: on the concrete fixture the website message is
present because the raw value is truthy and unparseable. -/
theorem c3_url_validation_on_raw_witness :
    "Invalid website URL" ∈ validate bodyC3 :=
  ((c3_url_validation_on_raw bodyC3).1).2 (by decide)

/-- C4: sanitization returns the empty string on every non-string input; on
string input the result contains no match of the tag pattern and has no
leading or trailing whitespace. -/
theorem c4_sanitize_output_clean :
    (∀ v : JSValue, (∀ s, v ≠ JSValue.vStr s) → stripHtml v = "")
    ∧ (∀ s : String,
        hasTagPattern (stripHtml (JSValue.vStr s)).data = false
        ∧ (∀ c, (stripHtml (JSValue.vStr s)).data.head? = some c → isJsSpace c = false)
        ∧ (∀ c, (stripHtml (JSValue.vStr s)).data.getLast? = some c → isJsSpace c = false)) := by
  constructor
  · intro v hv
    cases v with
    | vStr s => exact absurd rfl (hv s)
    | vUndefined => rfl
    | vNull => rfl
    | vBool b => rfl
    | vNum n => rfl
    | vArr xs => rfl
    | vObj fs => rfl
  · intro s
    exact ⟨hasTagPattern_stripHtmlStr s,
      fun c hc => stripHtmlStr_head hc,
      fun c hc => stripHtmlStr_getLast hc⟩

/-- C4 witness: a number sanitizes to the empty string, and a concrete tagged
padded string sanitizes to a clean one. -/
theorem c4_sanitize_output_clean_witness :
    stripHtml (JSValue.vNum (JSNum.int 7)) = ""
    ∧ hasTagPattern (stripHtml (JSValue.vStr " <p>bio</p> ")).data = false :=
  ⟨c4_sanitize_output_clean.1 (JSValue.vNum (JSNum.int 7)) (fun _ h => JSValue.noConfusion h),
   (c4_sanitize_output_clean.2 " <p>bio</p> ").1⟩

/-- C5: sanitization is idempotent on strings. -/
theorem c5_sanitize_idempotent (x : String) :
    stripHtml (JSValue.vStr (stripHtml (JSValue.vStr x))) = stripHtml (JSValue.vStr x) :=
  stripHtmlStr_idem x

/-- C6: validation collects every violation: the scenario-2 body (vendor,
one-letter name, bad email, short bio) is rejected 400 with all four
messages in the details. -/
theorem c6_all_violations_collected :
    (handler envOk reqC6 true).status = 400
    ∧ (handler envOk reqC6 true).body = RespBody.errDetails "Validation failed"
        ["Name is required (min 2 characters)", "Valid email is required",
         "Bio must be at least 50 characters", "Vendor type is required"]
    ∧ "Name is required (min 2 characters)" ∈ validate bodyC6
    ∧ "Valid email is required" ∈ validate bodyC6
    ∧ "Bio must be at least 50 characters" ∈ validate bodyC6
    ∧ "Vendor type is required" ∈ validate bodyC6 := by
  decide

/-- C7 counterexample: with both configuration values absent, an OPTIONS
request is still answered 200, not short-circuited with 500, so the claim's
"every request, whatever its method" fails. -/
theorem c7_options_without_config_counterexample :
    (handler envNone reqC7options true).status = 200
    ∧ (handler envNone reqC7options true).status ≠ 500 := by
  decide

/-- C7 amended: when either configuration value is absent, every POST
request is answered 500 with the configuration-error body before the body is
ever read (the same response results for every body); OPTIONS and other
methods are short-circuited earlier by the method dispatch (200 / 405)
without consulting the configuration. -/
theorem c7_post_missing_config_500 (env : Config) (req : Request) (ok : Bool)
    (hm : req.method = "POST")
    (h : envTruthy env.supabaseUrl = false ∨ envTruthy env.supabaseKey = false) :
    handler env req ok = ⟨500, RespBody.err "Server configuration error", acaoOf req, none⟩
    ∧ (∀ b, handler env { req with body := b } ok
        = ⟨500, RespBody.err "Server configuration error", acaoOf req, none⟩)
    ∧ (handler env { req with method := "OPTIONS" } ok).status = 200
    ∧ (handler env { req with method := "GET" } ok).status = 405 := by
  refine ⟨?_, ?_, rfl, rfl⟩
  · unfold handler handlerCore
    rcases h with h | h <;> simp [hm, h]
  · intro b
    unfold handler handlerCore
    rcases h with h | h <;>
      · simp [hm, h]
        rfl

/-- C7 amended witness: concrete configuration-missing POST). -/
theorem c7_post_missing_config_500_witness :
    handler envMissingUrl reqC7post true
      = ⟨500, RespBody.err "Server configuration error", none, none⟩ :=
  (c7_post_missing_config_500 envMissingUrl reqC7post true rfl (Or.inl rfl)).1

/-- C8: the allow-origin header equals the request origin exactly when that
origin is in the fixed allow-list or starts with the localhost prefix, is
never a wildcard, and the status, body and write of the response do not
depend on the origin at all (a disallowed origin is still fully
processed). -/
theorem c8_cors_allow_origin (env : Config) (req : Request) (ok : Bool) :
    (handler env req ok).acao = acaoOf req
    ∧ (∀ o, (handler env req ok).acao = some o ↔
        (o = req.origin.getD "" ∧ originAllowed o = true))
    ∧ (handler env req ok).acao ≠ some "*"
    ∧ (∀ o2,
        (handler env { req with origin := o2 } ok).status = (handler env req ok).status
        ∧ (handler env { req with origin := o2 } ok).body = (handler env req ok).body
        ∧ (handler env { req with origin := o2 } ok).write = (handler env req ok).write) := by
  refine ⟨rfl, ?_, ?_, ?_⟩
  · intro o
    show acaoOf req = some o ↔ _
    unfold acaoOf
    by_cases hall : originAllowed (req.origin.getD "") = true
    · rw [if_pos hall]
      constructor
      · intro he
        injection he with he2
        exact ⟨he2.symm, he2 ▸ hall⟩
      · rintro ⟨rfl, _⟩
        rfl
    · rw [if_neg hall]
      constructor
      · intro he; cases he
      · rintro ⟨rfl, ho⟩
        exact absurd ho hall
  · intro hc
    have hc' : acaoOf req = some "*" := hc
    unfold acaoOf at hc'
    split at hc'
    · rename_i hallow
      injection hc' with he
      rw [he] at hallow
      exact absurd hallow (by decide)
    · cases hc'
  · intro o2
    cases req
    exact ⟨rfl, rfl, rfl⟩

/-- C8 witness: a localhost origin is echoed; the evil-origin response never
carries a wildcard header. -/
theorem c8_cors_allow_origin_witness :
    (handler envOk reqC8local true).acao = acaoOf reqC8local
    ∧ (handler envOk reqC8evil true).acao ≠ some "*" :=
  ⟨(c8_cors_allow_origin envOk reqC8local true).1,
   (c8_cors_allow_origin envOk reqC8evil true).2.2.1⟩

/-- C9 counterexample: for an accepted submission carrying a User-Agent full
of markup and edge whitespace, the forwarded record's `user_agent` string
field is the raw header — it contains a tag-pattern match and leading
whitespace, refuting "every string field ... stripped and trimmed". -/
theorem c9_raw_header_counterexample :
    ((handler envOk reqC9 true).write.map Row.user_agent) = some (some " <b>hi</b> ")
    ∧ hasTagPattern (" <b>hi</b> " : String).data = true
    ∧ isJsSpace ' ' = true := by
  decide

/-- C9 amended: in every forwarded record, all user-supplied string fields
(and every element of the array fields) are sanitized — tag-free and
trimmed — and the `type` is exactly `talent` or `vendor`; the audit fields
`ip_address` and `user_agent`, however, are copied verbatim from the request
headers. -/
theorem c9_forwarded_row_sanitized (env : Config) (req : Request) (ok : Bool)
    (row : Row) (h : (handler env req ok).write = some row) :
    sanitizedB row.type = true
    ∧ sanitizedB row.name = true
    ∧ sanitizedB row.email = true
    ∧ sanitizedB row.bio = true
    ∧ (∀ s, row.phone = some s → sanitizedB s = true)
    ∧ (∀ s, row.location = some s → sanitizedB s = true)
    ∧ (∀ s, row.company = some s → sanitizedB s = true)
    ∧ (∀ s, row.website = some s → sanitizedB s = true)
    ∧ (∀ s, row.portfolio_url = some s → sanitizedB s = true)
    ∧ (∀ s, row.linkedin_url = some s → sanitizedB s = true)
    ∧ (∀ s, row.referral_source = some s → sanitizedB s = true)
    ∧ (∀ s, row.primary_discipline = some s → sanitizedB s = true)
    ∧ (∀ s, row.vendor_type = some s → sanitizedB s = true)
    ∧ (∀ l, row.disciplines = some l → ∀ s ∈ l, sanitizedB s = true)
    ∧ (∀ l, row.services_offered = some l → ∀ s ∈ l, sanitizedB s = true)
    ∧ (row.type = "talent" ∨ row.type = "vendor")
    ∧ row.ip_address = (optTruthy req.xForwardedFor).orElse (fun _ => optTruthy req.xRealIp)
    ∧ row.user_agent = optTruthy req.userAgent := by
  rcases write_inversion h with ⟨b, _, hval, hrow⟩
  subst hrow
  have htv := talent_or_vendor (validate_nil_type_valid hval)
  refine ⟨sanitizedB_stripHtml _, sanitizedB_stripHtml _, sanitizedB_stripHtml _,
    sanitizedB_stripHtml _, ?_, ?_, ?_, ?_, ?_, ?_, ?_, ?_, ?_, ?_, ?_, htv, rfl, rfl⟩
  · intro s hs; exact orNull_stripHtml_sanitized hs
  · intro s hs; exact orNull_stripHtml_sanitized hs
  · intro s hs; exact orNull_stripHtml_sanitized hs
  · intro s hs; exact orNull_stripHtml_sanitized hs
  · intro s hs; exact orNull_stripHtml_sanitized hs
  · intro s hs; exact orNull_stripHtml_sanitized hs
  · intro s hs; exact orNull_stripHtml_sanitized hs
  · intro s hs
    have hs' : (if stripHtml (getField b "type") = "talent"
        then some (stripHtml (getField b "primary_discipline")) else none) = some s := hs
    split at hs'
    · injection hs' with he; subst he; exact sanitizedB_stripHtml _
    · cases hs'
  · intro s hs
    have hs' : (if stripHtml (getField b "type") = "vendor"
        then some (stripHtml (getField b "vendor_type")) else none) = some s := hs
    split at hs'
    · injection hs' with he; subst he; exact sanitizedB_stripHtml _
    · cases hs'
  · intro l hl
    have hl' : (if stripHtml (getField b "type") = "talent"
        then sanitizeArr (getField b "disciplines") else none) = some l := hl
    split at hl'
    · exact sanitizeArr_sanitized hl'
    · cases hl'
  · intro l hl
    have hl' : (if stripHtml (getField b "type") = "vendor"
        then sanitizeArr (getField b "services_offered") else none) = some l := hl
    split at hl'
    · exact sanitizeArr_sanitized hl'
    · cases hl'

/-- C9 amended witness: projections of the concrete accepted row. -/
theorem c9_forwarded_row_sanitized_witness :
    sanitizedB (buildRow reqC9 bodyC9).name = true :=
  (c9_forwarded_row_sanitized envOk reqC9 true (buildRow reqC9 bodyC9) (by decide)).2.1

/-- C10: for a valid talent submission, a `years_experience` of the number 0,
of the string "0", or absent, all forward `years_experience` as null — the
persistence interface cannot distinguish them. -/
theorem c10_zero_years_experience_null :
    ((handler envOk reqC10num true).write.map Row.years_experience) = some none
    ∧ (handler envOk reqC10num true).status = 200
    ∧ ((handler envOk reqC10str true).write.map Row.years_experience) = some none
    ∧ (handler envOk reqC10str true).status = 200
    ∧ ((handler envOk reqC10abs true).write.map Row.years_experience) = some none := by
  decide

end Apply
